import Mathlib

/-!
# Verification of the course-counter record store

Shallow embedding of the `course-counter` program
(`src/labs/solana/programs/course-counter/src/`): a per-owner counter
record addressed by a deterministic derivation from a namespace tag and
the owner identity, with an ownership-gated increment and checked
arithmetic.

Files embedded:
* `state/counter.rs`   — the `Counter` record and its space constant;
* `error.rs`           — the `CourseError` enumeration;
* `instructions/initialize.rs` — account creation (`init` constraint,
  handler writing `authority`, `count = 0`, `bump`);
* `instructions/increment.rs`  — the `has_one = authority @ Unauthorized`
  gate and the `checked_add` handler;
* `lib.rs`             — the two entry points, both returning `Result<()>`.

The host runtime (account resolution, allocation, rent) is external to
the repository; per the specification's control flow the runtime resolves
the derived address, loads the record there and invokes the lifecycle
operation, so the store-level operations below take the resolved address
as an argument.  Machine integers are modelled as `Nat` with explicit
bounds (`u64` overflow is a rejected outcome via `checked_add`, exactly
as in the handler).
-/

namespace CourseCounter

/-- Maximum representable `u64` value (`u64::MAX`). -/
def U64_MAX : Nat := 2 ^ 64 - 1

/-- Rust `u64::checked_add`: `some (a + b)` when the mathematical sum is
representable, `none` on overflow. -/
def checked_add (a b : Nat) : Option Nat :=
  if a + b ≤ U64_MAX then some (a + b) else none

/-- An identity (`Pubkey`, a fixed-width 32-byte string) modelled as a
natural number; its byte encoding is fixed at 32 little-endian bytes. -/
abbrev Pubkey := Nat

/-- `state/counter.rs`: the persisted record.  `authority` is the owner
identity permitted to mutate the record, `count` the `u64` counter and
`bump` the stored disambiguation seed of the address derivation. -/
structure Counter where
  authority : Pubkey
  count : Nat
  bump : Nat
deriving DecidableEq, Repr

/-- `state/counter.rs`: account space,
8 (discriminator) + 32 (Pubkey) + 8 (u64) + 1 (u8) = 49. -/
def Counter.SPACE : Nat := 8 + 32 + 8 + 1

/-- `error.rs`: the program's error enumeration. -/
inductive CourseError
  | Unauthorized
  | Overflow
deriving DecidableEq, Repr

/-- Errors surfaced by the two entry points: the program's own errors
plus the account-lifecycle errors raised by the runtime's `init`
constraint (`AlreadyInitialized` on an occupied address,
`AccountNotInitialized` on a missing record, `DerivationFailed` when the
bounded seed search is exhausted). -/
inductive IxError
  | Unauthorized
  | Overflow
  | AlreadyInitialized
  | AccountNotInitialized
  | DerivationFailed
deriving DecidableEq, Repr

/-- Injection of the program's own errors into the entry-point errors. -/
def CourseError.toIx : CourseError → IxError
  | .Unauthorized => .Unauthorized
  | .Overflow => .Overflow

/-- Modelled from the spec: `constants.rs` (declared by `lib.rs` but not
under `src/`) defines the fixed namespace tag `COUNTER_SEED` used by both
instructions' `seeds = [COUNTER_SEED, authority.key().as_ref()]`.  Its
exact bytes are immaterial to every property below; we fix the ASCII
bytes of `"counter"`. -/
def COUNTER_SEED : List Nat := [99, 111, 117, 110, 116, 101, 114]

/-- A derived storage address.  The derivation maps
`(namespace tag, owner identity, disambiguation seed)` injectively to an
address; the triple itself serves as the address, which is by
construction distinct from any freestanding identity (`Pubkey`). -/
structure Address where
  tag : List Nat
  owner : Pubkey
  bump : Nat
deriving DecidableEq, Repr

/-- Modelled from the spec: the Address Deriver's bounded seed search
(performed by the external runtime, not part of this repository).  Given
the distinctness predicate `ok`, return the first-found seed starting
from 255 and counting down, or `none` when the search space is
exhausted. -/
def find_bump (ok : Nat → Bool) : Nat → Option Nat
  | 0 => if ok 0 then some 0 else none
  | b + 1 => if ok (b + 1) then some (b + 1) else find_bump ok b

/-- Modelled from the spec: the Address Deriver.  A pure function of
`(namespace_tag, owner_identity)` (and the distinctness predicate `ok`
supplied by the runtime): it searches the bounded seed space and returns
the derived address together with the disambiguation seed. -/
def derive_address (ok : List Nat → Pubkey → Nat → Bool)
    (tag : List Nat) (owner : Pubkey) : Option (Address × Nat) :=
  match find_bump (ok tag owner) 255 with
  | some b => some (⟨tag, owner, b⟩, b)
  | none => none

/-- The record store: each derived address holds at most one record. -/
def Store : Type := Address → Option Counter

/-- Point update of the store. -/
def Store.update (st : Store) (addr : Address) (c : Counter) : Store :=
  fun a => if a = addr then some c else st a

/-- `instructions/initialize.rs`, `handler`: writes `authority`,
`count = 0` and the derivation's bump into the fresh record. -/
def initialize_handler (authority : Pubkey) (bump : Nat) : Counter :=
  { authority := authority, count := 0, bump := bump }

/-- The `initialize` entry point (`lib.rs` + `instructions/initialize.rs`).
The runtime derives the address from `[COUNTER_SEED, authority]`; the
`init` constraint rejects an already-occupied address
(`AlreadyInitialized`); otherwise the handler populates the fresh record.
The Rust entry point returns `Result<()>`, so the success value is the
unit value. -/
def initializeIx (ok : List Nat → Pubkey → Nat → Bool)
    (st : Store) (authority : Pubkey) : Store × Except IxError Unit :=
  match derive_address ok COUNTER_SEED authority with
  | none => (st, .error .DerivationFailed)
  | some (addr, b) =>
    match st addr with
    | some _ => (st, .error .AlreadyInitialized)
    | none => (st.update addr (initialize_handler authority b), .ok ())

/-- `instructions/increment.rs`: account validation of the `Increment`
struct on the loaded record — the `has_one = authority` constraint with
its custom error `CourseError::Unauthorized`, evaluated before the
handler body runs. -/
def increment_validate (counter : Counter) (authority : Pubkey) :
    Except CourseError Unit :=
  if counter.authority = authority then .ok () else .error .Unauthorized

/-- `instructions/increment.rs`, `handler`:
`counter.count = counter.count.checked_add(1).ok_or(CourseError::Overflow)?`. -/
def increment_handler (counter : Counter) : Except CourseError Counter :=
  match checked_add counter.count 1 with
  | some n => .ok { counter with count := n }
  | none => .error .Overflow

/-- The record-level increment operation: account validation first
(runtime contract: constraints run before the handler), then the
handler. -/
def increment (counter : Counter) (requester : Pubkey) :
    Except CourseError Counter :=
  match increment_validate counter requester with
  | .error e => .error e
  | .ok () => increment_handler counter

/-- The `increment` entry point (`lib.rs` + `instructions/increment.rs`).
The runtime loads the record at the resolved address and the operation
runs; on any error the store is returned unchanged.  The Rust entry
point returns `Result<()>`, so the success value is the unit value. -/
def incrementIx (st : Store) (addr : Address) (requester : Pubkey) :
    Store × Except IxError Unit :=
  match st addr with
  | none => (st, .error .AccountNotInitialized)
  | some c =>
    match increment c requester with
    | .error e => (st, .error e.toIx)
    | .ok c2 => (st.update addr c2, .ok ())

/-- `n` successive owner increments of a record (record-level). -/
def incrementN (n : Nat) (c : Counter) : Except CourseError Counter :=
  match n with
  | 0 => .ok c
  | n + 1 =>
    match increment c c.authority with
    | .error e => .error e
    | .ok c2 => incrementN n c2

/-- Little-endian byte encoding of a natural number into exactly `w`
bytes (the fixed-width layout of the persisted fields). -/
def natToLE (w n : Nat) : List Nat :=
  match w with
  | 0 => []
  | w + 1 => (n % 256) :: natToLE w (n / 256)

/-- Persisted byte image of a record: the storage medium's fixed 8-byte
discriminator, then `authority` (32 bytes), `count` (8 bytes, `u64`
little-endian) and `bump` (1 byte). -/
def serializeCounter (disc : List Nat) (c : Counter) : List Nat :=
  disc ++ natToLE 32 c.authority ++ natToLE 8 c.count ++ natToLE 1 c.bump

end CourseCounter

namespace CourseCounter

/-! ## Helper lemmas -/

lemma increment_eq_ok_iff (c : Counter) (r : Pubkey) (c2 : Counter) :
    increment c r = .ok c2 ↔
      r = c.authority ∧ c.count < U64_MAX ∧ c2 = { c with count := c.count + 1 } := by
  unfold increment increment_validate increment_handler checked_add
  by_cases hauth : c.authority = r
  · by_cases hlt : c.count + 1 ≤ U64_MAX
    · simp [hauth, hlt]
      constructor
      · intro h
        exact ⟨by omega, h.symm⟩
      · intro ⟨_, h⟩
        exact h.symm
    · simp [hauth, hlt]
      omega
  · simp [hauth]
    intro h
    exact absurd h.symm hauth

lemma incrementIx_nonowner (st : Store) (addr : Address) (c : Counter) (r : Pubkey)
    (hload : st addr = some c) (hneq : r ≠ c.authority) :
    incrementIx st addr r = (st, .error .Unauthorized) := by
  unfold incrementIx increment increment_validate
  rw [hload]
  have hauth : ¬(c.authority = r) := fun h => hneq h.symm
  simp [hauth, CourseError.toIx]

lemma incrementN_spec (n : Nat) (c : Counter) (hle : c.count + n ≤ U64_MAX) :
    incrementN n c = .ok { c with count := c.count + n } := by
  induction n generalizing c with
  | zero =>
    simp [incrementN]
  | succ n ih =>
    have hstep : increment c c.authority = .ok { c with count := c.count + 1 } := by
      rw [increment_eq_ok_iff]
      exact ⟨rfl, by omega, rfl⟩
    have htail := ih { c with count := c.count + 1 } (by simp; omega)
    simp only [incrementN, hstep, htail]
    have : c.count + 1 + n = c.count + (n + 1) := by omega
    simp [this]

lemma natToLE_length (w n : Nat) : (natToLE w n).length = w := by
  induction w generalizing n with
  | zero => rfl
  | succ w ih => simp [natToLE, ih]

end CourseCounter

namespace CourseCounter

/-- A sample populated store for concrete witnesses: one record, owned by
identity 1, with count 4, at its derived address. -/
def sampleStore : Store :=
  fun a => if a = ⟨COUNTER_SEED, 1, 255⟩ then some ⟨1, 4, 255⟩ else none

/-- C1: an increment request whose requester identity differs from the
record's owner fails with `Unauthorized`; the authorization gate
(`has_one = authority @ CourseError::Unauthorized`) is evaluated before
the handler's mutation, and the store — hence every field of the record —
is returned unchanged. -/
theorem increment_nonowner_unauthorized (st : Store) (addr : Address)
    (c : Counter) (r : Pubkey)
    (hload : st addr = some c) (hneq : r ≠ c.authority) :
    incrementIx st addr r = (st, .error .Unauthorized) :=
  incrementIx_nonowner st addr c r hload hneq

theorem increment_nonowner_unauthorized_witness :
    incrementIx sampleStore ⟨COUNTER_SEED, 1, 255⟩ 2
      = (sampleStore, .error .Unauthorized) :=
  increment_nonowner_unauthorized sampleStore ⟨COUNTER_SEED, 1, 255⟩
    ⟨1, 4, 255⟩ 2 (by decide) (by decide)

/-- C2: an increment by the owner of a record whose count is already
`u64::MAX` fails with `Overflow` (`checked_add` reports the overflow
instead of wrapping) and the store — hence the whole record — is
returned unmodified. -/
theorem increment_at_max_overflow (st : Store) (addr : Address)
    (c : Counter) (r : Pubkey)
    (hload : st addr = some c) (hown : r = c.authority)
    (hmax : c.count = U64_MAX) :
    incrementIx st addr r = (st, .error .Overflow) := by
  have hnoadd : ¬(c.count + 1 ≤ U64_MAX) := by rw [hmax]; omega
  unfold incrementIx increment increment_validate increment_handler checked_add
  rw [hload]
  simp [hown, hnoadd, CourseError.toIx]

theorem increment_at_max_overflow_witness :
    incrementIx
      (fun a => if a = ⟨COUNTER_SEED, 1, 255⟩ then some ⟨1, U64_MAX, 255⟩ else none)
      ⟨COUNTER_SEED, 1, 255⟩ 1
      = ((fun a => if a = ⟨COUNTER_SEED, 1, 255⟩ then some ⟨1, U64_MAX, 255⟩ else none),
          .error .Overflow) :=
  increment_at_max_overflow _ ⟨COUNTER_SEED, 1, 255⟩ ⟨1, U64_MAX, 255⟩ 1
    (by decide) rfl rfl

/-- C3: on a record whose count is strictly below `u64::MAX`, an
increment by the owner succeeds and raises the count by exactly 1;
consequently, starting from a freshly created record (count 0), `n`
successful owner increments yield count `n`. -/
theorem increment_owner_succeeds_and_counts :
    (∀ (c : Counter), c.count < U64_MAX →
        increment c c.authority = .ok { c with count := c.count + 1 }) ∧
    ∀ (o b n : Nat), n ≤ U64_MAX →
        incrementN n (initialize_handler o b)
          = .ok { authority := o, count := n, bump := b } := by
  constructor
  · intro c hlt
    rw [increment_eq_ok_iff]
    exact ⟨rfl, hlt, rfl⟩
  · intro o b n hn
    have h := incrementN_spec n (initialize_handler o b)
      (by simp [initialize_handler]; omega)
    simpa [initialize_handler] using h

theorem increment_owner_succeeds_and_counts_witness :
    increment ⟨7, 41, 3⟩ 7 = .ok ⟨7, 42, 3⟩ ∧
    incrementN 5 (initialize_handler 9 254) = .ok ⟨9, 5, 254⟩ :=
  ⟨increment_owner_succeeds_and_counts.1 ⟨7, 41, 3⟩ (by decide),
   increment_owner_succeeds_and_counts.2 9 254 5 (by decide)⟩

/-- C4: creating a record at a fresh (unoccupied) address succeeds, and
the resulting record has `authority` equal to the supplied owner
identity, `count = 0`, and `bump` equal to the disambiguation seed
produced by the address derivation. -/
theorem initialize_fresh_record (ok : List Nat → Pubkey → Nat → Bool)
    (st : Store) (o : Pubkey) (addr : Address) (b : Nat)
    (hderive : derive_address ok COUNTER_SEED o = some (addr, b))
    (hfresh : st addr = none) :
    (initializeIx ok st o).1 addr = some ⟨o, 0, b⟩ ∧
    (initializeIx ok st o).2 = .ok () := by
  simp [initializeIx, hderive, hfresh, Store.update, initialize_handler]

theorem initialize_fresh_record_witness :
    (initializeIx (fun _ _ _ => true) (fun _ => none) 5).1 ⟨COUNTER_SEED, 5, 255⟩
      = some ⟨5, 0, 255⟩ ∧
    (initializeIx (fun _ _ _ => true) (fun _ => none) 5).2 = .ok () :=
  initialize_fresh_record (fun _ _ _ => true) (fun _ => none) 5
    ⟨COUNTER_SEED, 5, 255⟩ 255 (by decide) rfl

/-- C5: creating a record at an address already holding one fails with
`AlreadyInitialized` (the `init` constraint rejects re-entry — not a
no-op), the store is returned unchanged, and the existing record's
fields are intact. -/
theorem initialize_occupied_rejected (ok : List Nat → Pubkey → Nat → Bool)
    (st : Store) (o : Pubkey) (addr : Address) (b : Nat) (c : Counter)
    (hderive : derive_address ok COUNTER_SEED o = some (addr, b))
    (hsome : st addr = some c) :
    initializeIx ok st o = (st, .error .AlreadyInitialized) ∧
    (initializeIx ok st o).1 addr = some c := by
  have h : initializeIx ok st o = (st, .error .AlreadyInitialized) := by
    simp [initializeIx, hderive, hsome]
  exact ⟨h, by rw [h]; exact hsome⟩

theorem initialize_occupied_rejected_witness :
    initializeIx (fun _ _ _ => true) sampleStore 1
      = (sampleStore, .error .AlreadyInitialized) ∧
    (initializeIx (fun _ _ _ => true) sampleStore 1).1 ⟨COUNTER_SEED, 1, 255⟩
      = some ⟨1, 4, 255⟩ :=
  initialize_occupied_rejected (fun _ _ _ => true) sampleStore 1
    ⟨COUNTER_SEED, 1, 255⟩ 255 ⟨1, 4, 255⟩ (by decide) (by decide)

end CourseCounter

namespace CourseCounter

/-- C6: whether an increment succeeds or fails, every field of every
stored record other than `count` is unchanged; and across every
operation of the system (increment and create alike) the `authority`
(owner) and `bump` (disambiguation seed) fields of an existing record
never change — create never rewrites an existing record at all. -/
theorem noncount_fields_frame :
    (∀ (st : Store) (addr : Address) (r : Pubkey) (a : Address) (c : Counter),
        st a = some c →
        ∃ c2, (incrementIx st addr r).1 a = some c2 ∧
          c2.authority = c.authority ∧ c2.bump = c.bump) ∧
    ∀ (ok : List Nat → Pubkey → Nat → Bool) (st : Store) (o : Pubkey)
        (a : Address) (c : Counter),
        st a = some c → (initializeIx ok st o).1 a = some c := by
  constructor
  · intro st addr r a c ha
    unfold incrementIx
    cases hload : st addr with
    | none =>
      dsimp only
      exact ⟨c, ha, rfl, rfl⟩
    | some c0 =>
      dsimp only
      cases hinc : increment c0 r with
      | error e =>
        dsimp only
        exact ⟨c, ha, rfl, rfl⟩
      | ok c2 =>
        dsimp only
        obtain ⟨_, _, hc2⟩ := (increment_eq_ok_iff c0 r c2).mp hinc
        by_cases heq : a = addr
        · subst heq
          have hc0 : c0 = c := by
            rw [ha] at hload
            exact (Option.some.inj hload).symm
          subst hc0
          exact ⟨c2, by simp [Store.update], by rw [hc2], by rw [hc2]⟩
        · exact ⟨c, by simp [Store.update, heq, ha], rfl, rfl⟩
  · intro ok st o a c ha
    unfold initializeIx
    cases hd : derive_address ok COUNTER_SEED o with
    | none => exact ha
    | some p =>
      obtain ⟨addr, b⟩ := p
      dsimp only
      cases hocc : st addr with
      | some c0 => exact ha
      | none =>
        dsimp only
        have hne : a ≠ addr := by
          intro h
          rw [h, hocc] at ha
          cases ha
        simp [Store.update, hne, ha]

theorem noncount_fields_frame_witness :
    (∃ c2, (incrementIx sampleStore ⟨COUNTER_SEED, 1, 255⟩ 1).1 ⟨COUNTER_SEED, 1, 255⟩
        = some c2 ∧ c2.authority = 1 ∧ c2.bump = 255) ∧
    (initializeIx (fun _ _ _ => true) sampleStore 2).1 ⟨COUNTER_SEED, 1, 255⟩
      = some ⟨1, 4, 255⟩ :=
  ⟨noncount_fields_frame.1 sampleStore ⟨COUNTER_SEED, 1, 255⟩ 1
      ⟨COUNTER_SEED, 1, 255⟩ ⟨1, 4, 255⟩ (by decide),
   noncount_fields_frame.2 (fun _ _ _ => true) sampleStore 2
      ⟨COUNTER_SEED, 1, 255⟩ ⟨1, 4, 255⟩ (by decide)⟩

/-- C7: address derivation is a pure, deterministic function of its
inputs — two derivations with the same `(namespace_tag, owner)` pair
(under the same runtime distinctness predicate) produce the same
storage address, and indeed the same address-seed pair. -/
theorem derive_address_deterministic (ok : List Nat → Pubkey → Nat → Bool)
    (t : List Nat) (o : Pubkey) (r1 r2 : Address × Nat)
    (h1 : derive_address ok t o = some r1)
    (h2 : derive_address ok t o = some r2) :
    r1.1 = r2.1 ∧ r1 = r2 := by
  rw [h1] at h2
  have h := Option.some.inj h2
  exact ⟨congrArg Prod.fst h, h⟩

theorem derive_address_deterministic_witness :
    ((⟨COUNTER_SEED, 5, 255⟩, 255) : Address × Nat).1 = (⟨COUNTER_SEED, 5, 255⟩ : Address) ∧
    ((⟨COUNTER_SEED, 5, 255⟩, 255) : Address × Nat) = (⟨COUNTER_SEED, 5, 255⟩, 255) :=
  derive_address_deterministic (fun _ _ _ => true) COUNTER_SEED 5
    (⟨COUNTER_SEED, 5, 255⟩, 255) (⟨COUNTER_SEED, 5, 255⟩, 255)
    (by decide) (by decide)

end CourseCounter

namespace CourseCounter

/-- A second sample store: the same record as `sampleStore` but with a
different count, to exhibit that the success value of the entry point is
independent of the new counter value. -/
def sampleStoreHigh : Store :=
  fun a => if a = ⟨COUNTER_SEED, 1, 255⟩ then some ⟨1, 9, 255⟩ else none

/-- C8 counterexample: the two entry points of `lib.rs` return
`Result<()>`.  Two successful increments whose new counter values differ
(5 and 10) both return exactly the unit success value, so increment does
not return the new count; likewise a successful create returns the unit
success value, not the derived record address. -/
theorem entrypoint_success_values_carry_no_data :
    (incrementIx sampleStore ⟨COUNTER_SEED, 1, 255⟩ 1).2 = .ok () ∧
    (incrementIx sampleStoreHigh ⟨COUNTER_SEED, 1, 255⟩ 1).2 = .ok () ∧
    (incrementIx sampleStore ⟨COUNTER_SEED, 1, 255⟩ 1).1 ⟨COUNTER_SEED, 1, 255⟩
      = some ⟨1, 5, 255⟩ ∧
    (incrementIx sampleStoreHigh ⟨COUNTER_SEED, 1, 255⟩ 1).1 ⟨COUNTER_SEED, 1, 255⟩
      = some ⟨1, 10, 255⟩ ∧
    (initializeIx (fun _ _ _ => true) (fun _ => none) 5).2 = .ok () :=
  ⟨rfl, rfl, by decide, by decide, rfl⟩

/-- C8 as amended: the external interface consists of exactly the two
operations create (`initialize`) and increment; on success each returns
the unit value (`Ok(())`).  The record's address is the deterministic
derivation from the owner identity (so the caller can recompute it), and
the new counter value is recorded in the stored record (and logged)
rather than returned. -/
theorem interface_success_returns_unit (ok : List Nat → Pubkey → Nat → Bool)
    (st : Store) (o : Pubkey) (addr : Address) (b : Nat)
    (hderive : derive_address ok COUNTER_SEED o = some (addr, b))
    (hfresh : st addr = none)
    (st2 : Store) (a2 : Address) (c : Counter) (r : Pubkey)
    (hload : st2 a2 = some c) (hown : r = c.authority)
    (hlt : c.count < U64_MAX) :
    (initializeIx ok st o).2 = .ok () ∧
    (initializeIx ok st o).1 addr = some (initialize_handler o b) ∧
    (incrementIx st2 a2 r).2 = .ok () ∧
    (incrementIx st2 a2 r).1 a2 = some { c with count := c.count + 1 } := by
  have hinit : (initializeIx ok st o).1 addr = some (initialize_handler o b) ∧
      (initializeIx ok st o).2 = .ok () := by
    simp [initializeIx, hderive, hfresh, Store.update]
  have hinc : increment c r = .ok { c with count := c.count + 1 } := by
    rw [increment_eq_ok_iff]
    exact ⟨hown, hlt, rfl⟩
  have hstep : incrementIx st2 a2 r
      = (st2.update a2 { c with count := c.count + 1 }, .ok ()) := by
    unfold incrementIx
    rw [hload]
    dsimp only
    rw [hinc]
  refine ⟨hinit.2, hinit.1, ?_, ?_⟩
  · rw [hstep]
  · rw [hstep]
    simp [Store.update]

theorem interface_success_returns_unit_witness :
    (initializeIx (fun _ _ _ => true) (fun _ => none) 8).2 = .ok () ∧
    (initializeIx (fun _ _ _ => true) (fun _ => none) 8).1 ⟨COUNTER_SEED, 8, 255⟩
      = some (initialize_handler 8 255) ∧
    (incrementIx sampleStore ⟨COUNTER_SEED, 1, 255⟩ 1).2 = .ok () ∧
    (incrementIx sampleStore ⟨COUNTER_SEED, 1, 255⟩ 1).1 ⟨COUNTER_SEED, 1, 255⟩
      = some ⟨1, 5, 255⟩ :=
  interface_success_returns_unit (fun _ _ _ => true) (fun _ => none) 8
    ⟨COUNTER_SEED, 8, 255⟩ 255 (by decide) rfl
    sampleStore ⟨COUNTER_SEED, 1, 255⟩ ⟨1, 4, 255⟩ 1
    (by decide) rfl (by decide)

/-- C9: the persisted record layout is fixed-size — `authority` occupies
32 bytes, `count` 8 bytes and `bump` 1 byte, a 41-byte payload — and the
account space constant adds exactly the storage medium's fixed 8-byte
discriminator: `Counter::SPACE = 8 + 41 = 49`, the length of the
serialized record. -/
theorem counter_record_layout (disc : List Nat) (hdisc : disc.length = 8)
    (c : Counter) :
    (natToLE 32 c.authority).length = 32 ∧
    (natToLE 8 c.count).length = 8 ∧
    (natToLE 1 c.bump).length = 1 ∧
    (serializeCounter disc c).length = disc.length + 41 ∧
    (serializeCounter disc c).length = Counter.SPACE ∧
    Counter.SPACE = 8 + 41 := by
  have h32 := natToLE_length 32 c.authority
  have h8 := natToLE_length 8 c.count
  have h1 := natToLE_length 1 c.bump
  have hlen : (serializeCounter disc c).length = disc.length + 41 := by
    simp [serializeCounter, h32, h8, h1]
  exact ⟨h32, h8, h1, hlen, by rw [hlen, hdisc]; rfl, rfl⟩

theorem counter_record_layout_witness :
    (natToLE 32 (0 : Nat)).length = 32 ∧
    (natToLE 8 (0 : Nat)).length = 8 ∧
    (natToLE 1 (0 : Nat)).length = 1 ∧
    (serializeCounter (List.replicate 8 0) ⟨0, 0, 0⟩).length
      = (List.replicate 8 (0 : Nat)).length + 41 ∧
    (serializeCounter (List.replicate 8 0) ⟨0, 0, 0⟩).length = Counter.SPACE ∧
    Counter.SPACE = 8 + 41 :=
  counter_record_layout (List.replicate 8 0) (by decide) ⟨0, 0, 0⟩

/-- C10: when an increment request both comes from a non-owner and
targets a record whose count is at `u64::MAX`, the error is
`Unauthorized`, not `Overflow` — the authorization constraint of the
accounts struct is evaluated before the handler's checked arithmetic. -/
theorem unauthorized_takes_priority_over_overflow (st : Store)
    (addr : Address) (c : Counter) (r : Pubkey)
    (hload : st addr = some c) (hneq : r ≠ c.authority)
    (_hmax : c.count = U64_MAX) :
    incrementIx st addr r = (st, .error .Unauthorized) ∧
    incrementIx st addr r ≠ (st, .error .Overflow) := by
  have h := incrementIx_nonowner st addr c r hload hneq
  refine ⟨h, ?_⟩
  rw [h]
  intro hcontra
  cases congrArg Prod.snd hcontra

theorem unauthorized_takes_priority_over_overflow_witness :
    incrementIx
      (fun a => if a = ⟨COUNTER_SEED, 3, 254⟩ then some ⟨3, U64_MAX, 254⟩ else none)
      ⟨COUNTER_SEED, 3, 254⟩ 4
      = ((fun a => if a = ⟨COUNTER_SEED, 3, 254⟩ then some ⟨3, U64_MAX, 254⟩ else none),
          .error .Unauthorized) ∧
    incrementIx
      (fun a => if a = ⟨COUNTER_SEED, 3, 254⟩ then some ⟨3, U64_MAX, 254⟩ else none)
      ⟨COUNTER_SEED, 3, 254⟩ 4
      ≠ ((fun a => if a = ⟨COUNTER_SEED, 3, 254⟩ then some ⟨3, U64_MAX, 254⟩ else none),
          .error .Overflow) :=
  unauthorized_takes_priority_over_overflow _ ⟨COUNTER_SEED, 3, 254⟩
    ⟨3, U64_MAX, 254⟩ 4 (by decide) (by decide) rfl

end CourseCounter
